import Mathlib

/-!
Shallow embedding of scripts/update_offers.py.

The script refreshes a JSON store of product offers: for each stored offer
whose URL belongs to the target vendor, it fetches the product page, extracts
a candidate (title, price, old price) -- first from an embedded JSON-LD
product block, else from an HTML fallback -- merges the candidate into the
stored offer, and rewrites the store when anything changed.

Modelling conventions:
- Monetary amounts are exact rationals; Python floats on two-decimal prices
  are modelled by their decimal value.
- Strings are Lean Strings; character-level work is done on List Char.
- Python exceptions are the error side of Except PyErr.  The network fetch
  (requests.get + raise_for_status, lines 59-60) is an oracle of type
  String -> Except PyErr Page supplied to the driver.
- A fetched page is abstracted to the pieces the script inspects: its JSON-LD
  script tags, the text of the title / finalPrice / oldPrice selector targets,
  and (never read by the script) the page's other price-like text nodes.
-/

/-! ### Price text normalizer: parse_price, lines 21-30 -/

/-- Numeric value of a list of decimal digit characters. -/
def natOfDigits (l : List Char) : ℕ :=
  l.foldl (fun n c => 10 * n + (c.toNat - '0'.toNat)) 0

/-- The decimal amount written with integer digits ip and fractional digits
fp, as an exact rational. -/
def ratOfParts (ip fp : List Char) : ℚ :=
  (natOfDigits ip : ℚ) + (natOfDigits fp : ℚ) / 10 ^ fp.length

/-- Python str.replace(x, "") for a single character x. -/
def removeChar (x : Char) (l : List Char) : List Char :=
  l.filter (fun c => c ≠ x)

/-- Python str.replace(",", ".") : every comma becomes a dot. -/
def mapComma (l : List Char) : List Char :=
  l.map (fun c => if c = ',' then '.' else c)

/-- Python str.strip() : drop whitespace at both ends. -/
def trimWs (l : List Char) : List Char :=
  ((l.dropWhile Char.isWhitespace).reverse.dropWhile Char.isWhitespace).reverse

/-- Leftmost match of the regex  (\d+(\.\d{1,2})?)  : scan for the first
digit, take the maximal digit run, then optionally a dot followed by one or
two digits (greedy).  Returns the integer and fractional digit runs. -/
def findNumber : List Char → Option (List Char × List Char)
  | [] => none
  | c :: rest =>
    if c.isDigit then
      let ds := (c :: rest).takeWhile Char.isDigit
      match (c :: rest).dropWhile Char.isDigit with
      | '.' :: d :: tail =>
        if d.isDigit then
          match tail with
          | d2 :: _ => if d2.isDigit then some (ds, [d, d2]) else some (ds, [d])
          | [] => some (ds, [d])
        else some (ds, [])
      | _ => some (ds, [])
    else findNumber rest

/-- parse_price (lines 21-30): convert localized price text such as
"€ 52,95" to an amount.  Empty input, or input with no digit run, yields
none (Python None). -/
def parse_price (text : String) : Option ℚ :=
  if text = "" then none
  else
    let cleaned := trimWs (removeChar '\xa0' (removeChar '€' text.data))
    let cleaned := mapComma (removeChar '.' cleaned)
    match findNumber cleaned with
    | none => none
    | some (ip, fp) => some (ratOfParts ip fp)

/-! ### Python float() on JSON values, for the JSON-LD path (lines 75-85) -/

/-- Python exceptions that can arise in the script, plus the two fetch
failures (connection error and raise_for_status on a non-success status). -/
inductive PyErr where
  | network
  | httpStatus
  | valueError
  | typeError
  | keyError
deriving DecidableEq

/-- Mantissa of a Python float literal: digits, optionally with a dot
(d+ or d+. or d+.d* or .d+).  Returns the value and the unconsumed rest. -/
def parseDecimalPart (l : List Char) : Option (ℚ × List Char) :=
  let ip := l.takeWhile Char.isDigit
  match ip, l.dropWhile Char.isDigit with
  | [], '.' :: r₂ =>
    let fp := r₂.takeWhile Char.isDigit
    if fp.isEmpty then none
    else some (ratOfParts [] fp, r₂.dropWhile Char.isDigit)
  | [], _ => none
  | _ :: _, '.' :: r₂ =>
    let fp := r₂.takeWhile Char.isDigit
    some (ratOfParts ip fp, r₂.dropWhile Char.isDigit)
  | _ :: _, r₁ => some (ratOfParts ip [], r₁)

/-- Scale a parsed mantissa by a decimal exponent. -/
def applyExponent (q : ℚ) (negExp : Bool) (e : ℕ) : ℚ :=
  if negExp then q / 10 ^ e else q * 10 ^ e

/-- Optional exponent suffix of a Python float literal; anything else left
over makes the parse fail. -/
def parseExponent (q : ℚ) : List Char → Option ℚ
  | [] => some q
  | c :: r =>
    if c = 'e' ∨ c = 'E' then
      let se : Bool × List Char :=
        match r with
        | '+' :: t => (false, t)
        | '-' :: t => (true, t)
        | _ => (false, r)
      let ed := se.2.takeWhile Char.isDigit
      if ed.isEmpty then none
      else if (se.2.dropWhile Char.isDigit).isEmpty then
        some (applyExponent q se.1 (natOfDigits ed))
      else none
    else none

/-- Python float(s) on a string: optional surrounding whitespace, optional
sign, a decimal mantissa, an optional exponent.  none where Python raises
ValueError.  (Python's inf/nan words and underscore digit separators are
outside the model; no value in this development uses them.) -/
def floatOfString (s : String) : Option ℚ :=
  let l := trimWs s.data
  let sl : Bool × List Char :=
    match l with
    | '+' :: t => (false, t)
    | '-' :: t => (true, t)
    | _ => (false, l)
  match parseDecimalPart sl.2 with
  | none => none
  | some (q, rest) =>
    match parseExponent q rest with
    | none => none
    | some q' => some (if sl.1 then -q' else q')

/-- A JSON value that float() is applied to: a string, a number, or
anything else (list, dict, null, ...). -/
inductive PyVal where
  | str (s : String)
  | num (q : ℚ)
  | other
deriving DecidableEq

/-- Python float(v): numbers pass through, strings are parsed (ValueError on
failure), any other value raises TypeError. -/
def pyFloat : PyVal → Except PyErr ℚ
  | PyVal.num q => Except.ok q
  | PyVal.str s =>
    match floatOfString s with
    | some q => Except.ok q
    | none => Except.error PyErr.valueError
  | PyVal.other => Except.error PyErr.typeError

/-! ### JSON-LD extraction: extract_json_ld, lines 33-54 -/

/-- The offers object of a JSON-LD product block: the values stored under
the price / lowPrice / highPrice keys, when present. -/
structure OffersBlock where
  price : Option PyVal
  lowPrice : Option PyVal
  highPrice : Option PyVal
deriving DecidableEq

/-- A decoded JSON-LD dict, abstracted to the two keys the script reads:
name (modelled as a string when present) and offers (modelled as a JSON
object when present; the dict has the offers key iff this is some). -/
structure LdDict where
  name : Option String
  offers : Option OffersBlock
deriving DecidableEq

/-- An element of a decoded JSON-LD list: a dict, or anything else. -/
inductive LdItem where
  | dict (d : LdDict)
  | nondict
deriving DecidableEq

/-- A decoded JSON-LD document: a list, a dict, or a bare scalar. -/
inductive LdData where
  | list (items : List LdItem)
  | dict (d : LdDict)
  | scalar
deriving DecidableEq

/-- One script type=application/ld+json tag: its content either decodes
(json.loads succeeds on tag.string) or raises -- the raising case also
covers a missing tag.string (lines 39, 51-52 catch every exception). -/
inductive LdTag where
  | malformed
  | decoded (d : LdData)
deriving DecidableEq

/-- Lines 42-45: scan a decoded list for the first dict item that has an
offers key. -/
def findOffersItem : List LdItem → Option LdDict
  | [] => none
  | LdItem.dict d :: rest =>
    if d.offers.isSome then some d else findOffersItem rest
  | LdItem.nondict :: rest => findOffersItem rest

/-- Lines 42-49: the product dict a single decoded tag contributes, if any:
for a list, its first dict item with offers; for a dict, itself when it has
offers. -/
def productOfData : LdData → Option LdDict
  | LdData.list items => findOffersItem items
  | LdData.dict d => if d.offers.isSome then some d else none
  | LdData.scalar => none

/-- extract_json_ld (lines 33-54): first tag that decodes and contains a
product-with-offers dict; a tag whose decode raises is skipped (lines
51-52). -/
def extract_json_ld : List LdTag → Option LdDict
  | [] => none
  | LdTag.malformed :: rest => extract_json_ld rest
  | LdTag.decoded d :: rest =>
    match productOfData d with
    | some p => some p
    | none => extract_json_ld rest

/-! ### Page extractor: parse_budgetdranken_product, lines 57-122 -/

/-- What the script can observe of a fetched page, already run through
BeautifulSoup:
- ldTags: the script tags of type application/ld+json, in document order;
- titleSel: stripped text of the first match of the h1 selector chain
  (lines 100-105), if any selector matched;
- priceText: get_text() of the finalPrice .price element (line 107), when
  that element exists;
- oldPriceText: get_text() of the oldPrice .price element (line 108);
- allPriceTexts: every price-like text node anywhere on the page.  The
  script never reads this field; it is carried so that statements about
  page-wide disambiguation can be expressed. -/
structure Page where
  ldTags : List LdTag
  titleSel : Option String
  priceText : Option String
  oldPriceText : Option String
  allPriceTexts : List String
deriving DecidableEq

/-- The extraction result (title, price, old_price) of lines 92 and 122. -/
structure Candidate where
  title : Option String
  price : Option ℚ
  old_price : Option ℚ
deriving DecidableEq

/-- Lines 71-83: the JSON-LD price.  float(offers["price"]) with only
ValueError caught (lines 75-79), then overridden by float(offers["lowPrice"])
with nothing caught (lines 82-83). -/
def jsonLdPrice (offers : OffersBlock) : Except PyErr (Option ℚ) :=
  let p0 : Except PyErr (Option ℚ) :=
    match offers.price with
    | none => Except.ok none
    | some v =>
      match pyFloat v with
      | Except.ok q => Except.ok (some q)
      | Except.error PyErr.valueError => Except.ok none
      | Except.error e => Except.error e
  match p0 with
  | Except.error e => Except.error e
  | Except.ok p =>
    match offers.lowPrice with
    | none => Except.ok p
    | some v =>
      match pyFloat v with
      | Except.ok q => Except.ok (some q)
      | Except.error e => Except.error e

/-- Lines 84-85: the JSON-LD old price, float(offers["highPrice"]) with
nothing caught. -/
def jsonLdOldPrice (offers : OffersBlock) : Except PyErr (Option ℚ) :=
  match offers.highPrice with
  | none => Except.ok none
  | some v =>
    match pyFloat v with
    | Except.ok q => Except.ok (some q)
    | Except.error e => Except.error e

/-- Lines 117-120: the fallback-only minimum-price guard, blocking an
amount strictly below 5. -/
def validateFallback : Option ℚ → Option ℚ
  | some q => if q < 5 then none else some q
  | none => none

/-- parse_budgetdranken_product, lines 62-122, after the fetch: if any
JSON-LD product block is present it alone determines the candidate and is
returned immediately (line 92), with no minimum-price check; otherwise the
HTML fallback runs (lines 100-122) with the guard of lines 117-120. -/
def parse_budgetdranken_product (page : Page) : Except PyErr Candidate :=
  match extract_json_ld page.ldTags with
  | some pj =>
    let offers := pj.offers.getD ⟨none, none, none⟩
    match jsonLdPrice offers with
    | Except.error e => Except.error e
    | Except.ok price =>
      match jsonLdOldPrice offers with
      | Except.error e => Except.error e
      | Except.ok oldp => Except.ok ⟨pj.name, price, oldp⟩
  | none =>
    Except.ok ⟨page.titleSel,
      validateFallback (page.priceText.bind parse_price),
      page.oldPriceText.bind parse_price⟩

/-! ### Offer reconciliation and the driver: update_offers, lines 125-173 -/

/-- A stored offer entry.  url is the value of the url key (none when the
key is missing); rest stands for the entry's other JSON fields, which the
script never touches. -/
structure Offer where
  url : Option String
  title : Option String
  price : Option ℚ
  oldPrice : Option ℚ
  rest : String
deriving DecidableEq

/-- Lines 146-150: the title merge.  The guard is   title and
title != offer.get("title")  ; inside the guard the change is logged with
offer["title"], which raises KeyError when the stored offer has no title
key.  Returns the new title field and whether it changed. -/
def titleStep (stored : Option String) (ct : Option String) :
    Except PyErr (Option String × Bool) :=
  match ct with
  | some t =>
    if t ≠ "" ∧ some t ≠ stored then
      match stored with
      | none => Except.error PyErr.keyError
      | some _ => Except.ok (some t, true)
    else Except.ok (stored, false)
  | none => Except.ok (stored, false)

/-- Lines 152-162: the price and oldPrice merges (both use offer.get, so no
KeyError):  value is not None and value != stored  applies it. -/
def priceStep (stored : Option ℚ) (cp : Option ℚ) : Option ℚ × Bool :=
  match cp with
  | some p => if some p ≠ stored then (some p, true) else (stored, false)
  | none => (stored, false)

/-- Lines 146-162: merge one candidate into one stored offer, reporting
whether any field changed. -/
def applyCandidate (offer : Offer) (c : Candidate) : Except PyErr (Offer × Bool) :=
  match titleStep offer.title c.title with
  | Except.error e => Except.error e
  | Except.ok (t, ch₁) =>
    let p := priceStep offer.price c.price
    let op := priceStep offer.oldPrice c.old_price
    Except.ok ({ offer with title := t, price := p.1, oldPrice := op.1 },
      ch₁ || p.2 || op.2)

/-- Scheme characters accepted by urllib's scheme splitter. -/
def isSchemeChar (c : Char) : Bool :=
  c.isAlphanum || c = '+' || c = '-' || c = '.'

/-- urlparse(url).netloc: strip a leading scheme (letters/digits/+-. before
the first colon), then, when the remainder starts with //, take everything
up to the next /, ? or #; otherwise the netloc is empty. -/
def netlocOf (url : List Char) : List Char :=
  let pre := url.takeWhile (fun c => c ≠ ':')
  let rest :=
    if url.contains ':' && !pre.isEmpty && pre.all isSchemeChar
        && (pre.headD 'a').isAlpha then
      url.drop (pre.length + 1)
    else url
  match rest with
  | '/' :: '/' :: t => t.takeWhile (fun c => !(c = '/' || c = '?' || c = '#'))
  | _ => []

/-- Lowercasing, as str.lower() on the hosts at hand (ASCII). -/
def lowerL (l : List Char) : List Char := l.map Char.toLower

/-- The configured vendor domain of line 143. -/
def targetDomain : List Char := "budgetdranken.nl".data

/-- Python substring test:  pat in s  . -/
def containsSub (pat : List Char) : List Char → Bool
  | [] => pat.isEmpty
  | c :: rest => pat.isPrefixOf (c :: rest) || containsSub pat rest

/-- Lines 140-143: the script's domain filter,
"budgetdranken.nl" in urlparse(url).netloc.lower(). -/
def isTargetUrl (u : String) : Bool :=
  containsSub targetDomain (lowerL (netlocOf u.data))

/-- Lines 135-165: processing of a single stored offer.  An offer without a
url key or with an empty url, and an offer whose netloc fails the domain
filter, is returned unchanged; otherwise the page is fetched, parsed and
merged, every exception propagating. -/
def step (fetch : String → Except PyErr Page) (offer : Offer) :
    Except PyErr (Offer × Bool) :=
  match offer.url with
  | none => Except.ok (offer, false)
  | some u =>
    if u = "" then Except.ok (offer, false)
    else if isTargetUrl u then
      match fetch u with
      | Except.error e => Except.error e
      | Except.ok page =>
        match parse_budgetdranken_product page with
        | Except.error e => Except.error e
        | Except.ok c => applyCandidate offer c
    else Except.ok (offer, false)

/-- The offer loop of lines 133-165: sequential, an exception aborting the
remainder; accumulates the changed flag. -/
def runOffers (fetch : String → Except PyErr Page) :
    List Offer → Except PyErr (List Offer × Bool)
  | [] => Except.ok ([], false)
  | o :: rest =>
    match step fetch o with
    | Except.error e => Except.error e
    | Except.ok (o', ch) =>
      match runOffers fetch rest with
      | Except.error e => Except.error e
      | Except.ok (rest', ch') => Except.ok (o' :: rest', ch || ch')

/-- The end-of-run console summary (lines 171, 173). -/
inductive Summary where
  | updated
  | noChanges
deriving DecidableEq

/-- Observable outcome of a completed run: the store contents on disk after
the run, whether the file was rewritten, and which summary was printed. -/
structure RunOutcome where
  store : List Offer
  wrote : Bool
  summary : Summary
deriving DecidableEq

/-- update_offers, lines 125-173, given the loaded store contents and the
fetch oracle: run the loop, then rewrite the file iff anything changed
(lines 167-173).  The error side is an uncaught exception: the run aborts
with no write and no summary. -/
def update_offers (fetch : String → Except PyErr Page) (offers : List Offer) :
    Except PyErr RunOutcome :=
  match runOffers fetch offers with
  | Except.error e => Except.error e
  | Except.ok (offers', changed) =>
    if changed then Except.ok ⟨offers', true, Summary.updated⟩
    else Except.ok ⟨offers, false, Summary.noChanges⟩

/-! ### Definitions written from the spec's words, for comparison -/

/-- The spec's reading of the domain filter, for comparison with the
source's isTargetUrl: the URL's host is the target vendor domain itself or
a subdomain of it. -/
def hostMatchesSpec (u : String) : Bool :=
  let h := lowerL (netlocOf u.data)
  h == targetDomain || List.isSuffixOf ('.' :: targetDomain) h

/-- The spec's disambiguation-fallback candidate set, for comparison: every
price-like text node on the page, normalized, amounts below the validity
minimum discarded.  The source computes nothing of this kind. -/
def specDisambiguation (page : Page) : List ℚ :=
  (page.allPriceTexts.filterMap parse_price).filter (fun p => 5 ≤ p)

/-! ### Shared evaluation lemmas -/

/-- Evaluation of the normalizer on the euro-comma form "€34,95". -/
theorem parse_price_eval_comma : parse_price "€34,95" = some (3495 / 100 : ℚ) := by
  have h : parse_price "€34,95" = some (ratOfParts ['3', '4'] ['9', '5']) := rfl
  rw [h, ratOfParts, (by decide : natOfDigits ['3', '4'] = 34),
    (by decide : natOfDigits ['9', '5'] = 95)]
  norm_num

/-- Evaluation of the normalizer on the thousands-dot form "1.234,56". -/
theorem parse_price_eval_thousands : parse_price "1.234,56" = some (123456 / 100 : ℚ) := by
  have h : parse_price "1.234,56" = some (ratOfParts ['1', '2', '3', '4'] ['5', '6']) := rfl
  rw [h, ratOfParts, (by decide : natOfDigits ['1', '2', '3', '4'] = 1234),
    (by decide : natOfDigits ['5', '6'] = 56)]
  norm_num

/-- Evaluation of the attribute-path parse on "52.95". -/
theorem pyFloat_eval_5295 : pyFloat (PyVal.str "52.95") = Except.ok (5295 / 100 : ℚ) := by
  have h : pyFloat (PyVal.str "52.95") = Except.ok (ratOfParts ['5', '2'] ['9', '5']) := rfl
  rw [h, ratOfParts, (by decide : natOfDigits ['5', '2'] = 52),
    (by decide : natOfDigits ['9', '5'] = 95)]
  norm_num

/-- Evaluation of the attribute-path parse on "1.25". -/
theorem floatOfString_eval_125 : floatOfString "1.25" = some (125 / 100 : ℚ) := by
  have h : floatOfString "1.25" = some (ratOfParts ['1'] ['2', '5']) := rfl
  rw [h, ratOfParts, (by decide : natOfDigits ['1'] = 1),
    (by decide : natOfDigits ['2', '5'] = 25)]
  norm_num

/-! ### C5 -/

/-- C5: the price normalizer maps "€34,95" to 34.95 and "1.234,56" to
1234.56, maps "" to no amount, and on the attribute path (a direct float
parse with no locale munging) maps "52.95" to 52.95. -/
theorem C5_normalizer_table :
    parse_price "€34,95" = some (3495 / 100 : ℚ) ∧
    parse_price "1.234,56" = some (123456 / 100 : ℚ) ∧
    parse_price "" = none ∧
    pyFloat (PyVal.str "52.95") = Except.ok (5295 / 100 : ℚ) :=
  ⟨parse_price_eval_comma, parse_price_eval_thousands, rfl, pyFloat_eval_5295⟩

/-! ### C10 -/

/-- C10: in the JSON-LD path, an offers block whose price value is a string
that fails numeric parsing is tolerated (no price evidence), but an offers
block whose lowPrice or highPrice value fails numeric parsing raises an
uncaught exception out of the extractor for that page. -/
theorem C10_range_price_parse_uncaught :
    (∀ (nm : Option String) (s : String) (t p o : Option String) (a : List String),
      floatOfString s = none →
      parse_budgetdranken_product
        ⟨[LdTag.decoded (LdData.dict ⟨nm, some ⟨some (PyVal.str s), none, none⟩⟩)],
          t, p, o, a⟩ = Except.ok ⟨nm, none, none⟩) ∧
    (∀ (nm : Option String) (s : String) (t p o : Option String) (a : List String),
      floatOfString s = none →
      parse_budgetdranken_product
        ⟨[LdTag.decoded (LdData.dict ⟨nm, some ⟨none, some (PyVal.str s), none⟩⟩)],
          t, p, o, a⟩ = Except.error PyErr.valueError) ∧
    (∀ (nm : Option String) (s : String) (t p o : Option String) (a : List String),
      floatOfString s = none →
      parse_budgetdranken_product
        ⟨[LdTag.decoded (LdData.dict ⟨nm, some ⟨none, none, some (PyVal.str s)⟩⟩)],
          t, p, o, a⟩ = Except.error PyErr.valueError) := by
  refine ⟨?_, ?_, ?_⟩ <;>
    · intro nm s t p o a hs
      simp [parse_budgetdranken_product, extract_json_ld, productOfData,
        jsonLdPrice, jsonLdOldPrice, pyFloat, hs]

/-- Witness for C10 at the unparsable string "abc". -/
theorem C10_witness :
    parse_budgetdranken_product
      ⟨[LdTag.decoded (LdData.dict ⟨some "T", some ⟨some (PyVal.str "abc"), none, none⟩⟩)],
        none, none, none, []⟩ = Except.ok ⟨some "T", none, none⟩ ∧
    parse_budgetdranken_product
      ⟨[LdTag.decoded (LdData.dict ⟨some "T", some ⟨none, some (PyVal.str "abc"), none⟩⟩)],
        none, none, none, []⟩ = Except.error PyErr.valueError ∧
    parse_budgetdranken_product
      ⟨[LdTag.decoded (LdData.dict ⟨some "T", some ⟨none, none, some (PyVal.str "abc")⟩⟩)],
        none, none, none, []⟩ = Except.error PyErr.valueError :=
  ⟨C10_range_price_parse_uncaught.1 (some "T") "abc" none none none [] rfl,
   C10_range_price_parse_uncaught.2.1 (some "T") "abc" none none none [] rfl,
   C10_range_price_parse_uncaught.2.2 (some "T") "abc" none none none [] rfl⟩

/-! ### C1 -/

/-- A fetch oracle that fails with a connection error on every URL. -/
def failingFetch : String → Except PyErr Page := fun _ => Except.error PyErr.network

/-- A stored offer on the target domain. -/
def c1Offer : Offer := ⟨some "https://www.budgetdranken.nl/a", some "A", none, none, "extra"⟩

/-- C1 counterexample: a network failure on the single offer's fetch is not
caught at the offer-processing boundary -- the run aborts with the
exception, so no offer is skipped-and-continued, no store write happens,
and no end-of-run summary is printed. -/
theorem C1_counterexample :
    update_offers failingFetch [c1Offer] = Except.error PyErr.network := rfl

/-- C1 amended: only structured-data decode failures are tolerated (the
malformed JSON-LD tag is skipped and extraction continues); a fetch failure
(network error or non-success HTTP status) on an in-scope offer propagates
out of the offer loop, aborting the whole run with that exception -- later
offers are not processed, earlier successful changes are not written, and
no summary is printed. -/
theorem C1_abort_semantics :
    (∀ tags, extract_json_ld (LdTag.malformed :: tags) = extract_json_ld tags) ∧
    (∀ (fetch : String → Except PyErr Page) (o : Offer) (rest : List Offer)
        (u : String) (e : PyErr),
      o.url = some u → u ≠ "" → isTargetUrl u = true → fetch u = Except.error e →
      update_offers fetch (o :: rest) = Except.error e) := by
  refine ⟨fun tags => rfl, ?_⟩
  intro fetch o rest u e ho hu ht hf
  simp [update_offers, runOffers, step, ho, hu, ht, hf]

/-- Witness for C1 at a concrete offer and failing fetch. -/
theorem C1_witness :
    extract_json_ld [LdTag.malformed] = extract_json_ld [] ∧
    update_offers failingFetch [⟨some "https://budgetdranken.nl/b", none, none, none, ""⟩]
      = Except.error PyErr.network :=
  ⟨C1_abort_semantics.1 [],
   C1_abort_semantics.2 failingFetch ⟨some "https://budgetdranken.nl/b", none, none, none, ""⟩
     [] "https://budgetdranken.nl/b" PyErr.network rfl (by decide) (by decide) rfl⟩

/-! ### C2 -/

/-- A page whose JSON-LD product block carries the deposit-like price
"1.25", below the minimum plausible product price. -/
def page125 : Page :=
  ⟨[LdTag.decoded (LdData.dict ⟨none, some ⟨some (PyVal.str "1.25"), none, none⟩⟩)],
   none, none, none, []⟩

/-- A fetch oracle that serves page125 for every URL. -/
def fetch125 : String → Except PyErr Page := fun _ => Except.ok page125

/-- A stored offer on the target domain with no price yet. -/
def c2Offer : Offer := ⟨some "https://www.budgetdranken.nl/low", none, none, none, "keep"⟩

/-- C2 counterexample: the JSON-LD strategy accepts the price 1.25 without
any minimum-price check, and the run persists it -- the store ends up
holding a price strictly below 5. -/
theorem C2_counterexample :
    update_offers fetch125 [c2Offer] =
      Except.ok ⟨[⟨some "https://www.budgetdranken.nl/low", none,
        some (125 / 100 : ℚ), none, "keep"⟩], true, Summary.updated⟩ ∧
    (125 / 100 : ℚ) < 5 := by
  constructor
  · have hr : ratOfParts ['1'] ['2', '5'] = (125 / 100 : ℚ) := by
      rw [ratOfParts, (by decide : natOfDigits ['1'] = 1),
        (by decide : natOfDigits ['2', '5'] = 25)]
      norm_num
    rw [← hr]
    rfl
  · norm_num

/-- Helper: the fallback guard of lines 117-120 only lets amounts of at
least 5 through. -/
theorem validateFallback_ge {x : Option ℚ} {p : ℚ}
    (h : validateFallback x = some p) : 5 ≤ p := by
  cases x with
  | none => exact absurd h (by simp [validateFallback])
  | some q =>
    by_cases hq : q < 5
    · simp [validateFallback, hq] at h
    · simp [validateFallback, hq] at h
      exact h ▸ le_of_not_lt hq

/-- C2 amended: the minimum-price validation runs only on the HTML fallback
path -- when no JSON-LD product block is present, an extracted price is
always at least 5; the JSON-LD path returns its price with no such check,
so a run can persist a price below 5 (see the counterexample). -/
theorem C2_fallback_only_validation (page : Page) (c : Candidate) (p : ℚ)
    (hld : extract_json_ld page.ldTags = none)
    (hc : parse_budgetdranken_product page = Except.ok c)
    (hp : c.price = some p) : 5 ≤ p := by
  rw [parse_budgetdranken_product, hld] at hc
  cases hc
  exact validateFallback_ge hp

/-- A JSON-LD-free page whose finalPrice element text is "€34,95". -/
def c2Page : Page := ⟨[], none, some "€34,95", none, []⟩

/-- Witness for C2 at a concrete fallback page. -/
theorem C2_witness : (5 : ℚ) ≤ 3495 / 100 := by
  refine C2_fallback_only_validation c2Page ⟨none, some (3495 / 100 : ℚ), none⟩
    (3495 / 100 : ℚ) rfl ?_ rfl
  have h : parse_budgetdranken_product c2Page =
      Except.ok ⟨none, validateFallback (parse_price "€34,95"), none⟩ := rfl
  rw [h, parse_price_eval_comma]
  simp only [validateFallback]
  rw [if_neg (by norm_num)]

/-! ### C3 -/

/-- A page with a JSON-LD product block whose price does not parse, while
the page's finalPrice element holds the valid price text "€34,95". -/
def c3Page : Page :=
  ⟨[LdTag.decoded (LdData.dict ⟨some "T", some ⟨some (PyVal.str "not-a-number"), none, none⟩⟩)],
   some "H", some "€34,95", none, []⟩

/-- C3 counterexample: the JSON-LD block is present and its price fails
parsing, yet the extractor returns no price at all -- the lower-priority
fallback is never consulted, although it would have produced the validated
price 34.95; nothing is backfilled from it either (the h1 title "H" is
ignored in favor of the JSON-LD name). -/
theorem C3_counterexample :
    parse_budgetdranken_product c3Page = Except.ok ⟨some "T", none, none⟩ ∧
    c3Page.priceText = some "€34,95" ∧
    parse_price "€34,95" = some (3495 / 100 : ℚ) ∧
    (5 : ℚ) ≤ 3495 / 100 :=
  ⟨rfl, rfl, parse_price_eval_comma, by norm_num⟩

/-- C3 amended: the priority order is absolute at the page level -- when any
JSON-LD product block is present, the extraction result depends only on the
JSON-LD tags (the HTML strategies are never consulted, not even when the
JSON-LD price fails to parse, and never backfill any field); only when no
JSON-LD product block exists does the HTML fallback run, and then it alone
supplies title, price (validated) and old price. -/
theorem C3_jsonld_is_absolute :
    (∀ (page : Page) (pj : LdDict), extract_json_ld page.ldTags = some pj →
      parse_budgetdranken_product page =
        parse_budgetdranken_product ⟨page.ldTags, none, none, none, []⟩) ∧
    (∀ page : Page, extract_json_ld page.ldTags = none →
      parse_budgetdranken_product page =
        Except.ok ⟨page.titleSel, validateFallback (page.priceText.bind parse_price),
          page.oldPriceText.bind parse_price⟩) := by
  constructor
  · intro page pj hld
    show parse_budgetdranken_product page
      = parse_budgetdranken_product ⟨page.ldTags, none, none, none, []⟩
    rw [parse_budgetdranken_product, parse_budgetdranken_product]
    rw [show (⟨page.ldTags, none, none, none, []⟩ : Page).ldTags = page.ldTags from rfl, hld]
  · intro page hld
    rw [parse_budgetdranken_product, hld]

/-- Witness for C3 at concrete pages. -/
theorem C3_witness :
    parse_budgetdranken_product c3Page =
      parse_budgetdranken_product ⟨c3Page.ldTags, none, none, none, []⟩ ∧
    parse_budgetdranken_product ⟨[], some "H", none, none, []⟩ =
      Except.ok ⟨some "H", validateFallback ((none : Option String).bind parse_price),
        (none : Option String).bind parse_price⟩ :=
  ⟨C3_jsonld_is_absolute.1 c3Page
      ⟨some "T", some ⟨some (PyVal.str "not-a-number"), none, none⟩⟩ rfl,
   C3_jsonld_is_absolute.2 ⟨[], some "H", none, none, []⟩ rfl⟩

/-! ### C4 -/

/-- A page with no JSON-LD, no selector matches, and exactly one price-like
text node elsewhere on the page. -/
def c4Page : Page := ⟨[], none, none, none, ["€34,95"]⟩

/-- C4 counterexample: on a page where every strategy yields no price and
exactly one page-wide price-like candidate of at least 5 remains, the
extractor still returns no price -- there is no disambiguation fallback. -/
theorem C4_counterexample :
    parse_budgetdranken_product c4Page = Except.ok ⟨none, none, none⟩ ∧
    specDisambiguation c4Page = [(3495 / 100 : ℚ)] := by
  refine ⟨rfl, ?_⟩
  have hr : ratOfParts ['3', '4'] ['9', '5'] = (3495 / 100 : ℚ) := by
    rw [ratOfParts, (by decide : natOfDigits ['3', '4'] = 34),
      (by decide : natOfDigits ['9', '5'] = 95)]
    norm_num
  have h5 : (5 : ℚ) ≤ 3495 / 100 := by norm_num
  simp [specDisambiguation, c4Page, List.filter, hr, h5]

/-- C4 amended: no disambiguation fallback exists.  The extraction result
never depends on the page's other price-like text nodes, and when no
JSON-LD block is present and the finalPrice selector has no match the
extracted price is simply absent. -/
theorem C4_no_disambiguation :
    (∀ (page : Page) (l : List String),
      parse_budgetdranken_product
        ⟨page.ldTags, page.titleSel, page.priceText, page.oldPriceText, l⟩ =
      parse_budgetdranken_product page) ∧
    (∀ (t o : Option String) (a : List String),
      parse_budgetdranken_product ⟨[], t, none, o, a⟩ =
        Except.ok ⟨t, none, o.bind parse_price⟩) := by
  refine ⟨?_, ?_⟩
  · intro page l
    cases page
    rfl
  · intro t o a
    cases o <;> rfl

/-! ### C6 and C7: reconciliation lemmas -/

/-- A successful title merge is idempotent. -/
theorem titleStep_idem {st ct t' : Option String} {ch : Bool}
    (h : titleStep st ct = Except.ok (t', ch)) :
    titleStep t' ct = Except.ok (t', false) := by
  cases ct with
  | none => rfl
  | some t =>
    by_cases hc : t ≠ "" ∧ some t ≠ st
    · cases st with
      | none => simp [titleStep, hc] at h
      | some s =>
        simp only [titleStep, if_pos hc, Except.ok.injEq, Prod.mk.injEq] at h
        obtain ⟨rfl, rfl⟩ := h
        simp [titleStep]
    · simp only [titleStep, if_neg hc, Except.ok.injEq, Prod.mk.injEq] at h
      obtain ⟨rfl, rfl⟩ := h
      simp [titleStep, hc]

/-- The price merge is idempotent. -/
theorem priceStep_idem {st cp : Option ℚ} :
    priceStep (priceStep st cp).1 cp = ((priceStep st cp).1, false) := by
  cases cp with
  | none => rfl
  | some p =>
    by_cases hc : some p ≠ st
    · simp [priceStep, hc]
    · simp [priceStep, hc]

/-- Anatomy of a successful merge (lines 146-162): the new offer is the old
one with the three merged fields, and the change flag is the disjunction of
the per-field flags. -/
theorem applyCandidate_ok_shape {o : Offer} {c : Candidate} {o' : Offer} {ch : Bool}
    (h : applyCandidate o c = Except.ok (o', ch)) :
    ∃ t ch₁, titleStep o.title c.title = Except.ok (t, ch₁) ∧
      o' = { o with
              title := t,
              price := (priceStep o.price c.price).1,
              oldPrice := (priceStep o.oldPrice c.old_price).1 } ∧
      ch = (ch₁ || (priceStep o.price c.price).2 || (priceStep o.oldPrice c.old_price).2) := by
  rw [applyCandidate] at h
  cases ht : titleStep o.title c.title with
  | error e => rw [ht] at h; cases h
  | ok tc =>
    obtain ⟨t, ch₁⟩ := tc
    rw [ht] at h
    simp only [Except.ok.injEq, Prod.mk.injEq] at h
    exact ⟨t, ch₁, rfl, h.1.symm, h.2.symm⟩

/-- C6: reconciliation is idempotent -- when merging a candidate into a
stored offer succeeds and yields an updated offer, merging the same
candidate into the updated offer again reports no change and returns the
identical offer. -/
theorem C6_reconcile_idempotent (o : Offer) (c : Candidate) (o₁ : Offer) (ch : Bool)
    (h : applyCandidate o c = Except.ok (o₁, ch)) :
    applyCandidate o₁ c = Except.ok (o₁, false) := by
  obtain ⟨t, ch₁, ht, rfl, rfl⟩ := applyCandidate_ok_shape h
  have hts := titleStep_idem ht
  rw [applyCandidate]
  simp only [hts, priceStep_idem, Bool.or_self]

/-- Witness for C6 at a concrete offer and candidate. -/
theorem C6_witness :
    applyCandidate ⟨some "u", some "b", none, none, "r"⟩ ⟨some "b", none, none⟩
      = Except.ok (⟨some "u", some "b", none, none, "r"⟩, false) :=
  C6_reconcile_idempotent ⟨some "u", some "a", none, none, "r"⟩ ⟨some "b", none, none⟩
    ⟨some "u", some "b", none, none, "r"⟩ true rfl

/-- C7: reconciliation is field-independent.  A successful merge of a
candidate with a title but no price and no old price leaves the stored
price, oldPrice, url and other fields exactly unchanged; more generally an
absent candidate field never changes (in particular never clears) the
corresponding stored field. -/
theorem C7_field_independence :
    (∀ (o : Offer) (t : String) (o' : Offer) (ch : Bool),
      applyCandidate o ⟨some t, none, none⟩ = Except.ok (o', ch) →
      o'.price = o.price ∧ o'.oldPrice = o.oldPrice ∧ o'.url = o.url ∧ o'.rest = o.rest) ∧
    (∀ (o : Offer) (c : Candidate) (o' : Offer) (ch : Bool),
      applyCandidate o c = Except.ok (o', ch) →
      (c.price = none → o'.price = o.price) ∧
      (c.old_price = none → o'.oldPrice = o.oldPrice) ∧
      (c.title = none → o'.title = o.title)) := by
  constructor
  · intro o t o' ch h
    obtain ⟨t', ch₁, ht, rfl, rfl⟩ := applyCandidate_ok_shape h
    exact ⟨rfl, rfl, rfl, rfl⟩
  · intro o c o' ch h
    obtain ⟨t', ch₁, ht, rfl, rfl⟩ := applyCandidate_ok_shape h
    refine ⟨fun hp => ?_, fun hop => ?_, fun hts => ?_⟩
    · simp [priceStep, hp]
    · simp [priceStep, hop]
    · rw [hts] at ht
      simp only [titleStep, Except.ok.injEq, Prod.mk.injEq] at ht
      simp [← ht.1]

/-- A stored offer and its updated form for the C7 witness. -/
def c7Stored : Offer := ⟨some "u", some "a", some 30, some 40, "r"⟩

/-- The offer c7Stored after a title-only merge. -/
def c7Updated : Offer := ⟨some "u", some "b", some 30, some 40, "r"⟩

/-- Witness for C7 at a concrete title-only candidate. -/
theorem C7_witness :
    c7Updated.price = c7Stored.price ∧ c7Updated.oldPrice = c7Stored.oldPrice ∧
    c7Updated.url = c7Stored.url ∧ c7Updated.rest = c7Stored.rest :=
  C7_field_independence.1 c7Stored "b" c7Updated true rfl

/-! ### C8: the write-iff-changed contract -/

/-- The title merge's change flag is honest: set iff the field moved. -/
theorem titleStep_flag {st ct t : Option String} {ch : Bool}
    (h : titleStep st ct = Except.ok (t, ch)) :
    (ch = true → t ≠ st) ∧ (ch = false → t = st) := by
  cases ct with
  | none =>
    simp only [titleStep, Except.ok.injEq, Prod.mk.injEq] at h
    obtain ⟨h1, h2⟩ := h
    subst h1; subst h2
    exact ⟨(fun hf => nomatch hf), fun _ => rfl⟩
  | some t₀ =>
    by_cases hc : t₀ ≠ "" ∧ some t₀ ≠ st
    · cases st with
      | none => simp [titleStep, hc] at h
      | some s =>
        simp only [titleStep, if_pos hc, Except.ok.injEq, Prod.mk.injEq] at h
        obtain ⟨h1, h2⟩ := h
        subst h1; subst h2
        exact ⟨fun _ => hc.2, (fun hf => nomatch hf)⟩
    · simp only [titleStep, if_neg hc, Except.ok.injEq, Prod.mk.injEq] at h
      obtain ⟨h1, h2⟩ := h
      subst h1; subst h2
      exact ⟨(fun hf => nomatch hf), fun _ => rfl⟩

/-- The price merge's change flag is honest: set iff the field moved. -/
theorem priceStep_flag (st cp : Option ℚ) :
    ((priceStep st cp).2 = true → (priceStep st cp).1 ≠ st) ∧
    ((priceStep st cp).2 = false → (priceStep st cp).1 = st) := by
  cases cp with
  | none => exact ⟨(fun hf => nomatch hf), fun _ => rfl⟩
  | some p =>
    by_cases hc : some p ≠ st
    · simp [priceStep, hc]
    · simp [priceStep, hc]

/-- A successful merge reports a change iff the offer actually differs, and
never touches the url or the offer's other fields. -/
theorem applyCandidate_change_semantics {o : Offer} {c : Candidate} {o' : Offer} {ch : Bool}
    (h : applyCandidate o c = Except.ok (o', ch)) :
    (ch = true ↔ o' ≠ o) ∧ o'.url = o.url ∧ o'.rest = o.rest := by
  obtain ⟨t, ch₁, ht, rfl, rfl⟩ := applyCandidate_ok_shape h
  have htf := titleStep_flag ht
  have hpf := priceStep_flag o.price c.price
  have hof := priceStep_flag o.oldPrice c.old_price
  refine ⟨⟨?_, ?_⟩, rfl, rfl⟩
  · intro hch hoo
    rcases Bool.or_eq_true_iff.mp hch with hch' | h3
    · rcases Bool.or_eq_true_iff.mp hch' with h1 | h2
      · have : t = o.title := by
          have := congrArg Offer.title hoo
          simpa using this
        exact htf.1 h1 this
      · have : (priceStep o.price c.price).1 = o.price := by
          have := congrArg Offer.price hoo
          simpa using this
        exact hpf.1 h2 this
    · have : (priceStep o.oldPrice c.old_price).1 = o.oldPrice := by
        have := congrArg Offer.oldPrice hoo
        simpa using this
      exact hof.1 h3 this
  · intro hne
    by_contra hch
    rw [Bool.not_eq_true, Bool.or_eq_false_iff, Bool.or_eq_false_iff] at hch
    obtain ⟨⟨h1, h2⟩, h3⟩ := hch
    apply hne
    rw [htf.2 h1, hpf.2 h2, hof.2 h3]

/-- Per-offer processing reports a change iff the offer differs, and keeps
url and other fields. -/
theorem step_semantics {fetch : String → Except PyErr Page} {o o' : Offer} {ch : Bool}
    (h : step fetch o = Except.ok (o', ch)) :
    (ch = true ↔ o' ≠ o) ∧ o'.url = o.url ∧ o'.rest = o.rest := by
  have triv : (Except.ok (o, false) : Except PyErr (Offer × Bool)) = Except.ok (o', ch) →
      (ch = true ↔ o' ≠ o) ∧ o'.url = o.url ∧ o'.rest = o.rest := by
    intro he
    simp only [Except.ok.injEq, Prod.mk.injEq] at he
    obtain ⟨h1, h2⟩ := he
    subst h1; subst h2
    simp
  rw [step] at h
  split at h
  · exact triv h
  · split at h
    · exact triv h
    · split at h
      · split at h
        · cases h
        · split at h
          · cases h
          · exact applyCandidate_change_semantics h
      · exact triv h

/-- The offer loop's changed flag is honest, and the loop preserves the
collection's length and every offer's url and other fields. -/
theorem runOffers_semantics {fetch : String → Except PyErr Page}
    {offers offers' : List Offer} {ch : Bool}
    (h : runOffers fetch offers = Except.ok (offers', ch)) :
    (ch = true ↔ offers' ≠ offers) ∧ offers'.length = offers.length ∧
    ∀ i (hi : i < offers'.length) (hi' : i < offers.length),
      (offers'.get ⟨i, hi⟩).url = (offers.get ⟨i, hi'⟩).url ∧
      (offers'.get ⟨i, hi⟩).rest = (offers.get ⟨i, hi'⟩).rest := by
  induction offers generalizing offers' ch with
  | nil =>
    simp only [runOffers, Except.ok.injEq, Prod.mk.injEq] at h
    obtain ⟨h1, h2⟩ := h
    subst h1; subst h2
    refine ⟨by simp, rfl, fun i hi hi' => absurd hi (by simp)⟩
  | cons o rest ih =>
    rw [runOffers] at h
    cases hs : step fetch o with
    | error e => rw [hs] at h; cases h
    | ok p =>
      obtain ⟨o', cho⟩ := p
      rw [hs] at h
      cases hr : runOffers fetch rest with
      | error e => rw [hr] at h; cases h
      | ok pr =>
        obtain ⟨rest', chr⟩ := pr
        rw [hr] at h
        simp only [Except.ok.injEq, Prod.mk.injEq] at h
        obtain ⟨h1, h2⟩ := h
        subst h1; subst h2
        have hso := step_semantics hs
        have hro := ih hr
        refine ⟨⟨?_, ?_⟩, ?_, ?_⟩
        · intro hor heq
          simp only [List.cons.injEq] at heq
          rcases Bool.or_eq_true_iff.mp hor with h1 | h2
          · exact (hso.1.mp h1) heq.1
          · exact (hro.1.mp h2) heq.2
        · intro hne
          by_contra hb
          rw [Bool.not_eq_true, Bool.or_eq_false_iff] at hb
          obtain ⟨hb1, hb2⟩ := hb
          have e1 : o' = o := by
            by_contra he
            exact absurd (hso.1.mpr he) (by simp [hb1])
          have e2 : rest' = rest := by
            by_contra he
            exact absurd (hro.1.mpr he) (by simp [hb2])
          exact hne (by rw [e1, e2])
        · simp [hro.2.1]
        · intro i hi hi'
          cases i with
          | zero => exact ⟨hso.2.1, hso.2.2⟩
          | succ n =>
            simp only [List.length_cons, Nat.succ_lt_succ_iff] at hi hi'
            exact hro.2.2 n hi hi'

/-- C8: on a completed run the store file is rewritten iff at least one
offer field changed (equivalently, iff the final store differs from the
loaded one, and iff the "updated" summary was printed); when nothing
changed, the on-disk contents are the untouched originals; and in either
case the collection keeps its length and every offer keeps its url and its
unrelated fields. -/
theorem C8_write_iff_changed (fetch : String → Except PyErr Page)
    (offers : List Offer) (out : RunOutcome)
    (h : update_offers fetch offers = Except.ok out) :
    (out.wrote = true ↔ out.store ≠ offers) ∧
    (out.wrote = true ↔ out.summary = Summary.updated) ∧
    (out.wrote = false → out.store = offers) ∧
    out.store.length = offers.length ∧
    ∀ i (hi : i < out.store.length) (hi' : i < offers.length),
      (out.store.get ⟨i, hi⟩).url = (offers.get ⟨i, hi'⟩).url ∧
      (out.store.get ⟨i, hi⟩).rest = (offers.get ⟨i, hi'⟩).rest := by
  rw [update_offers] at h
  cases hr : runOffers fetch offers with
  | error e => rw [hr] at h; cases h
  | ok p =>
    obtain ⟨offers', changed⟩ := p
    rw [hr] at h
    have sem := runOffers_semantics hr
    cases changed with
    | true =>
      simp only [if_true] at h
      simp only [Except.ok.injEq] at h
      subst h
      refine ⟨?_, by simp, by simp, sem.2.1, sem.2.2⟩
      simpa using sem.1
    | false =>
      simp only [Bool.false_eq_true, if_false] at h
      simp only [Except.ok.injEq] at h
      subst h
      simp

/-- A fetch oracle serving a page whose JSON-LD block has a name and an
empty offers object. -/
def c8Fetch : String → Except PyErr Page := fun _ =>
  Except.ok ⟨[LdTag.decoded (LdData.dict ⟨some "New", some ⟨none, none, none⟩⟩)],
    none, none, none, []⟩

/-- A stored offer whose title will change. -/
def c8Offer : Offer := ⟨some "https://www.budgetdranken.nl/x", some "Old", none, none, "k"⟩

/-- The run outcome for the C8 witness. -/
def c8Out : RunOutcome :=
  ⟨[⟨some "https://www.budgetdranken.nl/x", some "New", none, none, "k"⟩],
    true, Summary.updated⟩

/-- Witness for C8 at a concrete run in which one title changes. -/
theorem C8_witness :
    (c8Out.wrote = true ↔ c8Out.store ≠ [c8Offer]) ∧
    (c8Out.wrote = true ↔ c8Out.summary = Summary.updated) ∧
    (c8Out.wrote = false → c8Out.store = [c8Offer]) ∧
    c8Out.store.length = [c8Offer].length ∧
    ∀ i (hi : i < c8Out.store.length) (hi' : i < [c8Offer].length),
      (c8Out.store.get ⟨i, hi⟩).url = ([c8Offer].get ⟨i, hi'⟩).url ∧
      (c8Out.store.get ⟨i, hi⟩).rest = ([c8Offer].get ⟨i, hi'⟩).rest :=
  C8_write_iff_changed c8Fetch [c8Offer] c8Out rfl

/-! ### C9: the domain filter -/

/-- A fetch oracle serving a page whose JSON-LD offers carry the numeric
price 10. -/
def c9Fetch : String → Except PyErr Page := fun _ =>
  Except.ok ⟨[LdTag.decoded (LdData.dict ⟨none, some ⟨some (PyVal.num 10), none, none⟩⟩)],
    none, none, none, []⟩

/-- A stored offer whose URL's host merely contains the vendor domain as a
substring -- it is not that domain, nor a subdomain of it. -/
def c9Offer : Offer := ⟨some "https://evilbudgetdranken.nl/p", none, none, none, "z"⟩

/-- C9 counterexample: the host evilbudgetdranken.nl does not match the
target vendor domain, yet the offer is fetched and reconciled (its price
changes and the store is rewritten), because the filter is a substring test
on the netloc. -/
theorem C9_counterexample :
    hostMatchesSpec "https://evilbudgetdranken.nl/p" = false ∧
    update_offers c9Fetch [c9Offer] =
      Except.ok ⟨[⟨some "https://evilbudgetdranken.nl/p", none, some (10 : ℚ), none, "z"⟩],
        true, Summary.updated⟩ :=
  ⟨by decide, rfl⟩

/-- An offer whose URL's lowercased netloc never passes the substring
filter (or that has no usable URL) is left exactly as it was. -/
theorem step_untargeted {fetch : String → Except PyErr Page} {o : Offer}
    (hu : ∀ u, o.url = some u → u = "" ∨ isTargetUrl u = false) :
    step fetch o = Except.ok (o, false) := by
  rw [step]
  cases ho : o.url with
  | none => rfl
  | some u =>
    rcases hu u ho with h1 | h2
    · simp [h1]
    · simp [h2]

/-- Untargeted offers pass through the whole loop unchanged. -/
theorem runOffers_untouched {fetch : String → Except PyErr Page}
    {offers offers' : List Offer} {ch : Bool}
    (h : runOffers fetch offers = Except.ok (offers', ch)) :
    ∀ i (hi : i < offers'.length) (hi' : i < offers.length),
      (∀ u, (offers.get ⟨i, hi'⟩).url = some u → u = "" ∨ isTargetUrl u = false) →
      offers'.get ⟨i, hi⟩ = offers.get ⟨i, hi'⟩ := by
  induction offers generalizing offers' ch with
  | nil =>
    simp only [runOffers, Except.ok.injEq, Prod.mk.injEq] at h
    obtain ⟨h1, h2⟩ := h
    subst h1; subst h2
    intro i hi
    exact absurd hi (by simp)
  | cons o rest ih =>
    rw [runOffers] at h
    cases hs : step fetch o with
    | error e => rw [hs] at h; cases h
    | ok p =>
      obtain ⟨o', cho⟩ := p
      rw [hs] at h
      cases hr : runOffers fetch rest with
      | error e => rw [hr] at h; cases h
      | ok pr =>
        obtain ⟨rest', chr⟩ := pr
        rw [hr] at h
        simp only [Except.ok.injEq, Prod.mk.injEq] at h
        obtain ⟨h1, h2⟩ := h
        subst h1; subst h2
        intro i hi hi' hunt
        cases i with
        | zero =>
          have hstep : step fetch o = Except.ok (o, false) := step_untargeted hunt
          rw [hstep] at hs
          simp only [Except.ok.injEq, Prod.mk.injEq] at hs
          exact hs.1.symm
        | succ n =>
          simp only [List.length_cons, Nat.succ_lt_succ_iff] at hi hi'
          exact ih hr n hi hi' hunt

/-- C9 amended: an offer is fetched and reconciled exactly when its URL is
present, nonempty, and its lowercased netloc contains "budgetdranken.nl" as
a substring (not: when its host equals the vendor domain or a subdomain of
it -- see the counterexample); every other offer, including offers with no
URL, reaches the final store entirely untouched. -/
theorem C9_domain_filter_substring :
    (∀ (fetch : String → Except PyErr Page) (o : Offer),
      (∀ u, o.url = some u → u = "" ∨ isTargetUrl u = false) →
      step fetch o = Except.ok (o, false)) ∧
    (∀ (fetch : String → Except PyErr Page) (o : Offer) (u : String),
      o.url = some u → u ≠ "" → isTargetUrl u = true →
      step fetch o =
        match fetch u with
        | Except.error e => Except.error e
        | Except.ok page =>
          match parse_budgetdranken_product page with
          | Except.error e => Except.error e
          | Except.ok c => applyCandidate o c) ∧
    (∀ (fetch : String → Except PyErr Page) (offers : List Offer) (out : RunOutcome),
      update_offers fetch offers = Except.ok out →
      ∀ i (hi : i < out.store.length) (hi' : i < offers.length),
        (∀ u, (offers.get ⟨i, hi'⟩).url = some u → u = "" ∨ isTargetUrl u = false) →
        out.store.get ⟨i, hi⟩ = offers.get ⟨i, hi'⟩) := by
  refine ⟨fun fetch o hu => step_untargeted hu, ?_, ?_⟩
  · intro fetch o u ho hu ht
    simp only [step, ho]
    rw [if_neg hu, if_pos ht]
  · intro fetch offers out hout i hi hi' hunt
    rw [update_offers] at hout
    cases hr : runOffers fetch offers with
    | error e => rw [hr] at hout; cases hout
    | ok p =>
      obtain ⟨offers', changed⟩ := p
      rw [hr] at hout
      cases changed with
      | true =>
        simp only [if_true, Except.ok.injEq] at hout
        subst hout
        exact runOffers_untouched hr i hi hi' hunt
      | false =>
        simp only [Bool.false_eq_true, if_false, Except.ok.injEq] at hout
        subst hout
        rfl

/-- A stored offer on a non-vendor host. -/
def c9NonTarget : Offer := ⟨some "https://example.com/x", none, none, none, "w"⟩

/-- Witness for C9 at concrete offers on and off the vendor domain. -/
theorem C9_witness :
    step failingFetch c9NonTarget = Except.ok (c9NonTarget, false) ∧
    step failingFetch ⟨some "https://budgetdranken.nl/w", none, none, none, "t"⟩
      = Except.error PyErr.network ∧
    ((⟨[c9NonTarget], false, Summary.noChanges⟩ : RunOutcome).store.get ⟨0, by decide⟩)
      = [c9NonTarget].get ⟨0, by decide⟩ := by
  have hnt : ∀ u, c9NonTarget.url = some u → u = "" ∨ isTargetUrl u = false := by
    intro u hu
    exact Or.inr (Option.some.inj hu ▸ (by decide : isTargetUrl "https://example.com/x" = false))
  refine ⟨C9_domain_filter_substring.1 failingFetch c9NonTarget hnt, ?_, ?_⟩
  · exact C9_domain_filter_substring.2.1 failingFetch
      ⟨some "https://budgetdranken.nl/w", none, none, none, "t"⟩
      "https://budgetdranken.nl/w" rfl (by decide) (by decide)
  · exact C9_domain_filter_substring.2.2 failingFetch [c9NonTarget]
      ⟨[c9NonTarget], false, Summary.noChanges⟩ rfl 0 (by decide) (by decide) hnt
